import Mathlib

/-!
Verification development for the CSV-to-record ingestion engine of libkml
(`kml/convenience/csv_parser`).  The implementation file `csv_parser.cc` is
not part of the source tree available here (only its unit tests are), so the
engine below is modelled from the specification, with the unit tests in
`src/trunk/src/kml/convenience/csv_parser_test.cc` fixing the observable
details the spec leaves open (notably the line-number convention).

Strings are Lean `String`s; the C++ `double` coordinates are modelled
exactly, as decimals `mantissa × 10 ^ (-exp10)` (`Decimal`), with
`parseDecimal` modelling the base-10 floating-point literal parse demanded
by the spec and `Decimal.toRat` giving the rational value.
-/

/-- An exact base-10 value, the model of the parsed coordinate. -/
structure Decimal where
  mantissa : Int
  exp10 : Nat
deriving DecidableEq, Repr

/-- The rational value of a `Decimal`. -/
def Decimal.toRat (d : Decimal) : ℚ :=
  (d.mantissa : ℚ) / (10 : ℚ) ^ d.exp10

/-- Modelled from the spec: ASCII lowercasing used for the case-insensitive
match of header column names against the four built-in names. -/
def lowerAscii (s : String) : String :=
  String.mk (s.data.map Char.toLower)

/-- Modelled from the spec: the Column Role tagged variant — the four
built-in roles plus `Generic` carrying the original column text. -/
inductive ColRole where
  | Latitude
  | Longitude
  | Name
  | Description
  | Generic (attrName : String)
deriving DecidableEq, Repr

/-- The four built-in column names recognised case-insensitively. -/
def builtinNames : List String :=
  ["latitude", "longitude", "name", "description"]

/-- Modelled from the spec: classification of a single header column —
case-insensitive exact match against the four built-in names; any other
column becomes `Generic` carrying the original (not lower-cased) text. -/
def classifyColumn (col : String) : ColRole :=
  if lowerAscii col = "latitude" then ColRole.Latitude
  else if lowerAscii col = "longitude" then ColRole.Longitude
  else if lowerAscii col = "name" then ColRole.Name
  else if lowerAscii col = "description" then ColRole.Description
  else ColRole.Generic col

/-- Modelled from the spec: the per-line status codes (`Outcome` kinds).
`SetSchema` reuses the same enumeration, as the C++ `CsvParserStatus` does. -/
inductive CsvParserStatus where
  | OK
  | InvalidData
  | BlankLine
  | MissingRequiredField
deriving DecidableEq, Repr

/-- Modelled from the spec: the Schema Table.  The four built-in roles are
remembered by column index; all other columns live in `csv_schema`, an
ordered (key-sorted) index-to-name map mirroring the C++
`std::map<int, string> CsvSchema`. -/
structure SchemaTable where
  lat_col : Option Nat
  lon_col : Option Nat
  name_col : Option Nat
  description_col : Option Nat
  csv_schema : List (Nat × String)
deriving DecidableEq, Repr

/-- The schema state of a freshly constructed parser. -/
def emptySchema : SchemaTable :=
  ⟨none, none, none, none, []⟩

/-- Key-sorted insert-or-replace into the index-to-name map, modelling
`std::map` insertion by operator[]. -/
def mapInsert (k : Nat) (v : String) : List (Nat × String) → List (Nat × String)
  | [] => [(k, v)]
  | (k0, v0) :: rest =>
    if k < k0 then (k, v) :: (k0, v0) :: rest
    else if k = k0 then (k, v) :: rest
    else (k0, v0) :: mapInsert k v rest

/-- Lookup by column index in the index-to-name map, modelling
`std::map::find`. -/
def schemaFind (m : List (Nat × String)) (k : Nat) : Option String :=
  match m with
  | [] => none
  | (k0, v0) :: rest => if k0 = k then some v0 else schemaFind rest k

/-- Modelled from the spec: record the role of column `i` in the schema
being built. -/
def applyColumn (st : SchemaTable) (i : Nat) (col : String) : SchemaTable :=
  match classifyColumn col with
  | ColRole.Latitude => { st with lat_col := some i }
  | ColRole.Longitude => { st with lon_col := some i }
  | ColRole.Name => { st with name_col := some i }
  | ColRole.Description => { st with description_col := some i }
  | ColRole.Generic attrName => { st with csv_schema := mapInsert i attrName st.csv_schema }

/-- Left-to-right fold of `applyColumn` over the header fields, starting at
column index `i`. -/
def setSchemaFrom (st : SchemaTable) (i : Nat) : List String → SchemaTable
  | [] => st
  | col :: rest => setSchemaFrom (applyColumn st i col) (i + 1) rest

/-- Modelled from the spec: `CsvParser::SetSchema`.  An empty header yields
the `BlankLine` status (the documented degenerate case); otherwise every
column is classified left to right and the status is `OK`.  The schema state
`st` of the parser is updated in place (the C++ member map is not cleared
first), which is what makes idempotence a real statement. -/
def SetSchema (st : SchemaTable) (header : List String) : CsvParserStatus × SchemaTable :=
  if header.isEmpty then (CsvParserStatus.BlankLine, st)
  else (CsvParserStatus.OK, setSchemaFrom st 0 header)

/-- Modelled from the spec: the Structured Record (C++ `Placemark` as the
engine fills it): optional identifier, optional description, optional point
geometry (latitude, longitude), and the ordered generic attributes. -/
structure Placemark where
  name : Option String
  description : Option String
  geometry : Option (Decimal × Decimal)
  attributes : List (String × String)
deriving DecidableEq, Repr

/-- The record before any field has been applied. -/
def emptyPlacemark : Placemark :=
  ⟨none, none, none, []⟩

/-- Modelled from the spec: parse of a base-10 floating-point literal —
optional sign, integer digits, optional fraction — requiring the whole
string to be consumed and at least one digit to be present; the value is
kept exact. -/
def parseDecimal (s : String) : Option Decimal :=
  let signSplit : Bool × List Char :=
    match s.data with
    | '-' :: rest => (true, rest)
    | '+' :: rest => (false, rest)
    | cs => (false, cs)
  let neg := signSplit.1
  let cs := signSplit.2
  let intDigits := cs.takeWhile Char.isDigit
  let afterInt := cs.dropWhile Char.isDigit
  let digitsVal : List Char → Nat :=
    fun ds => ds.foldl (fun acc c => 10 * acc + (c.toNat - 48)) 0
  let build : Nat → Nat → Nat → Option Decimal := fun ip fp flen =>
    let mag : Int := (ip * 10 ^ flen + fp : Nat)
    some ⟨if neg then -mag else mag, flen⟩
  match afterInt with
  | [] =>
    if intDigits.isEmpty then none
    else build (digitsVal intDigits) 0 0
  | '.' :: afterPoint =>
    let fracDigits := afterPoint.takeWhile Char.isDigit
    let afterFrac := afterPoint.dropWhile Char.isDigit
    if afterFrac.isEmpty then
      if intDigits.isEmpty && fracDigits.isEmpty then none
      else build (digitsVal intDigits) (digitsVal fracDigits) fracDigits.length
    else none
  | _ => none

/-- Accumulator for mapping one data line: the two coordinates (once
parsed) and the record under construction. -/
structure LineAcc where
  lat : Option Decimal
  lon : Option Decimal
  pm : Placemark
deriving DecidableEq, Repr

/-- Modelled from the spec: coerce the field at column `i` according to its
role.  A latitude/longitude parse failure yields `none` (the whole line is
`InvalidData`); name/description are taken verbatim; a generic column
appends an attribute; a column unknown to the schema is skipped. -/
def mapField (schema : SchemaTable) (acc : LineAcc) (i : Nat) (f : String) : Option LineAcc :=
  if schema.lat_col = some i then
    match parseDecimal f with
    | none => none
    | some v => some ⟨some v, acc.lon, acc.pm⟩
  else if schema.lon_col = some i then
    match parseDecimal f with
    | none => none
    | some v => some ⟨acc.lat, some v, acc.pm⟩
  else if schema.name_col = some i then
    some ⟨acc.lat, acc.lon, { acc.pm with name := some f }⟩
  else if schema.description_col = some i then
    some ⟨acc.lat, acc.lon, { acc.pm with description := some f }⟩
  else
    match schemaFind schema.csv_schema i with
    | some attrName =>
      some ⟨acc.lat, acc.lon,
            { acc.pm with attributes := acc.pm.attributes ++ [(attrName, f)] }⟩
    | none => some acc

/-- Left-to-right fold of `mapField` over the data-line fields starting at
column index `i`; stops with `none` at the first coordinate parse failure. -/
def mapFields (schema : SchemaTable) : Nat → List String → LineAcc → Option LineAcc
  | _, [], acc => some acc
  | i, f :: rest, acc =>
    match mapField schema acc i f with
    | none => none
    | some acc2 => mapFields schema (i + 1) rest acc2

/-- Modelled from the spec: `CsvParser::CsvLineToPlacemark` — the Line
Mapper plus Record Builder for one data line.  An empty line is `BlankLine`;
a coordinate parse failure is `InvalidData`; a line mapped without both
coordinates is `MissingRequiredField`; otherwise the finished record with
its point geometry is returned with status `OK`. -/
def csvLineToPlacemark (schema : SchemaTable) (fields : List String) :
    CsvParserStatus × Placemark :=
  if fields.isEmpty then (CsvParserStatus.BlankLine, emptyPlacemark)
  else
    match mapFields schema 0 fields ⟨none, none, emptyPlacemark⟩ with
    | none => (CsvParserStatus.InvalidData, emptyPlacemark)
    | some acc =>
      match acc.lat, acc.lon with
      | some la, some lo =>
        (CsvParserStatus.OK, { acc.pm with geometry := some (la, lo) })
      | some _, none => (CsvParserStatus.MissingRequiredField, acc.pm)
      | none, _ => (CsvParserStatus.MissingRequiredField, acc.pm)

/-- The handler type: `HandleLine(line_number, status, placemark) -> bool`,
`true` meaning continue with the next line. -/
def CsvParserHandlerFn : Type :=
  Nat → CsvParserStatus → Placemark → Bool

/-- The handler that always continues (the behaviour of the test handlers,
which collect records and errors and return `true`). -/
def continueAll : CsvParserHandlerFn :=
  fun _ _ _ => true

/-- Modelled from the spec: the Streaming phase of the Driver Loop — map
each data line, invoke the handler, stop early when the handler returns
`false`.  The returned list is the trace of handler invocations, in order.
The line counter convention follows the unit test `TestBadLineError`: the
header is line 1, so the first data line is passed line number 2. -/
def runLines (schema : SchemaTable) (handler : CsvParserHandlerFn) :
    Nat → List (List String) → List (Nat × CsvParserStatus × Placemark)
  | _, [] => []
  | n, line :: rest =>
    let r := csvLineToPlacemark schema line
    if handler n r.1 r.2 then (n, r.1, r.2) :: runLines schema handler (n + 1) rest
    else [(n, r.1, r.2)]

/-- Modelled from the spec: `CsvParser::ParseCsv` — build the schema from
the first line, then stream every remaining line through the handler.  The
boolean result reports only whether a header line could be obtained at all;
per-line failures and a degenerate schema never make it `false`. -/
def ParseCsv (lines : List (List String)) (handler : CsvParserHandlerFn) :
    Bool × List (Nat × CsvParserStatus × Placemark) :=
  match lines with
  | [] => (false, [])
  | header :: dataLines =>
    let s := SetSchema emptySchema header
    (true, runLines s.2 handler 2 dataLines)

/-- Modelled from the spec: the parser object state visible in the tests —
the line source held by the constructor (`none` models a NULL
`CsvSplitter*`) and the schema member filled by `SetSchema`. -/
structure CsvParserObj where
  csv_splitter : Option (List (List String))
  schema : SchemaTable
deriving DecidableEq, Repr

/-- Modelled from the spec: the `SetSchema` member function — it reads and
writes only the schema member of the parser object. -/
def CsvParserObj.SetSchemaM (p : CsvParserObj) (header : List String) :
    CsvParserStatus × CsvParserObj :=
  let r := SetSchema p.schema header
  (r.1, ⟨p.csv_splitter, r.2⟩)

/-- Modelled from the spec: `CsvParser::GetSchema`, exposing the
index-to-name map of the generic columns. -/
def CsvParserObj.GetSchema (p : CsvParserObj) : List (Nat × String) :=
  p.schema.csv_schema

/-- Bool test for recognition of a built-in column name
(case-insensitive). -/
def isBuiltinName (s : String) : Bool :=
  if lowerAscii s ∈ builtinNames then true else false

/-- The (index, attribute-name) pairs of the generic columns of a header
suffix starting at column `i`, in ascending column order — the spec-side
description of the index-to-name map. -/
def genericPairs (i : Nat) : List String → List (Nat × String)
  | [] => []
  | col :: rest =>
    match classifyColumn col with
    | ColRole.Generic a => (i, a) :: genericPairs (i + 1) rest
    | _ => genericPairs (i + 1) rest

/-- The fold `setSchemaFrom` performs on one built-in column slot:
the last column classified with the selected role wins. -/
def colFold (hit : ColRole → Bool) (o : Option Nat) (i : Nat) : List String → Option Nat
  | [] => o
  | c :: rest => colFold hit (if hit (classifyColumn c) then some i else o) (i + 1) rest

/-- Role testers for `colFold`. -/
def hitLat (r : ColRole) : Bool := decide (r = ColRole.Latitude)

/-- Role tester for the longitude slot. -/
def hitLon (r : ColRole) : Bool := decide (r = ColRole.Longitude)

/-- Role tester for the name slot. -/
def hitName (r : ColRole) : Bool := decide (r = ColRole.Name)

/-- Role tester for the description slot. -/
def hitDescription (r : ColRole) : Bool := decide (r = ColRole.Description)

/-- The fold `setSchemaFrom` performs on the index-to-name map. -/
def insertAll (m : List (Nat × String)) (i : Nat) : List String → List (Nat × String)
  | [] => m
  | c :: rest =>
    insertAll
      (match classifyColumn c with
       | ColRole.Generic a => mapInsert i a m
       | _ => m) (i + 1) rest

/-- The generic attribute contributed by column `p.1` holding field text
`p.2`, if any: built-in columns contribute none; a column in the
index-to-name map contributes its attribute pair. -/
def attrOf (schema : SchemaTable) (p : Nat × String) : Option (String × String) :=
  if schema.lat_col = some p.1 then none
  else if schema.lon_col = some p.1 then none
  else if schema.name_col = some p.1 then none
  else if schema.description_col = some p.1 then none
  else (schemaFind schema.csv_schema p.1).map fun a => (a, p.2)

/-- Spec-side description of the attribute list of a mapped line: the
generic attribute pairs enumerated by ascending column index
(`List.range` is ascending by construction). -/
def ascendingAttributes (schema : SchemaTable) (fields : List String) :
    List (String × String) :=
  ((List.range fields.length).zip fields).filterMap (attrOf schema)

/-! ## Supporting lemmas: schema construction -/

theorem classifyColumn_latitude (s : String) :
    classifyColumn s = ColRole.Latitude ↔ lowerAscii s = "latitude" := by
  unfold classifyColumn
  split_ifs with h1 h2 h3 h4 <;> simp_all

theorem classifyColumn_longitude (s : String) :
    classifyColumn s = ColRole.Longitude ↔ lowerAscii s = "longitude" := by
  unfold classifyColumn
  split_ifs with h1 h2 h3 h4 <;> simp_all

theorem classifyColumn_name (s : String) :
    classifyColumn s = ColRole.Name ↔ lowerAscii s = "name" := by
  unfold classifyColumn
  split_ifs with h1 h2 h3 h4 <;> simp_all

theorem classifyColumn_description (s : String) :
    classifyColumn s = ColRole.Description ↔ lowerAscii s = "description" := by
  unfold classifyColumn
  split_ifs with h1 h2 h3 h4 <;> simp_all

theorem classifyColumn_generic (s v : String) :
    classifyColumn s = ColRole.Generic v ↔ (lowerAscii s ∉ builtinNames ∧ v = s) := by
  unfold classifyColumn
  split_ifs with h1 h2 h3 h4 <;> simp_all [builtinNames]
  tauto

theorem setSchemaFrom_eq (l : List String) : ∀ (i : Nat) (st : SchemaTable),
    setSchemaFrom st i l =
      ⟨colFold hitLat st.lat_col i l,
       colFold hitLon st.lon_col i l,
       colFold hitName st.name_col i l,
       colFold hitDescription st.description_col i l,
       insertAll st.csv_schema i l⟩ := by
  induction l with
  | nil => intro i st; rfl
  | cons c rest ih =>
    intro i st
    cases hc : classifyColumn c <;>
      simp [setSchemaFrom, applyColumn, hc, colFold, insertAll, ih,
            hitLat, hitLon, hitName, hitDescription]

theorem mapInsert_append (k : Nat) (v : String) :
    ∀ m : List (Nat × String), (∀ p ∈ m, p.1 < k) → mapInsert k v m = m ++ [(k, v)] := by
  intro m
  induction m with
  | nil => intro _; rfl
  | cons q rest ih =>
    intro h
    have hk0 : q.1 < k := h q (List.mem_cons_self _ _)
    obtain ⟨k0, v0⟩ := q
    simp only [mapInsert]
    rw [if_neg (by omega), if_neg (by omega)]
    simp [ih fun p hp => h p (List.mem_cons_of_mem _ hp)]

theorem insertAll_from_bounded (l : List String) :
    ∀ (i : Nat) (m : List (Nat × String)), (∀ p ∈ m, p.1 < i) →
      insertAll m i l = m ++ genericPairs i l := by
  induction l with
  | nil => intro i m _; simp [insertAll, genericPairs]
  | cons c rest ih =>
    intro i m h
    cases hc : classifyColumn c
    case Generic a =>
      have hins : mapInsert i a m = m ++ [(i, a)] := mapInsert_append i a m h
      have hb : ∀ p ∈ m ++ [(i, a)], p.1 < i + 1 := by
        intro p hp
        rcases List.mem_append.mp hp with hp | hp
        · exact Nat.lt_succ_of_lt (h p hp)
        · simp only [List.mem_singleton] at hp
          subst hp
          exact Nat.lt_succ_self i
      simp only [insertAll, genericPairs, hc, hins]
      rw [ih (i + 1) (m ++ [(i, a)]) hb]
      simp
    all_goals
      have hb : ∀ p ∈ m, p.1 < i + 1 := fun p hp => Nat.lt_succ_of_lt (h p hp)
      simp only [insertAll, genericPairs, hc]
      exact ih (i + 1) m hb

theorem schemaFind_genericPairs_lt (l : List String) :
    ∀ i j, j < i → schemaFind (genericPairs i l) j = none := by
  induction l with
  | nil => intro i j _; rfl
  | cons c rest ih =>
    intro i j hj
    cases hc : classifyColumn c
    case Generic a =>
      simp only [genericPairs, hc, schemaFind]
      rw [if_neg (by omega)]
      exact ih (i + 1) j (by omega)
    all_goals
      simp only [genericPairs, hc]
      exact ih (i + 1) j (by omega)

theorem schemaFind_genericPairs_generic (l : List String) :
    ∀ (i k : Nat) (c a : String), l[k]? = some c →
      classifyColumn c = ColRole.Generic a →
      schemaFind (genericPairs i l) (i + k) = some a := by
  induction l with
  | nil => intro i k c a hget _; simp at hget
  | cons c0 rest ih =>
    intro i k c a hget hcls
    cases k with
    | zero =>
      simp at hget
      subst hget
      simp only [genericPairs, hcls, schemaFind]
      simp
    | succ k =>
      have hget2 : rest[k]? = some c := by simpa using hget
      cases hc0 : classifyColumn c0
      case Generic a0 =>
        simp only [genericPairs, hc0, schemaFind]
        rw [if_neg (by omega)]
        have := ih (i + 1) k c a hget2 hcls
        rw [show i + (k + 1) = (i + 1) + k by omega]
        exact this
      all_goals
        simp only [genericPairs, hc0]
        have := ih (i + 1) k c a hget2 hcls
        rw [show i + (k + 1) = (i + 1) + k by omega]
        exact this

theorem schemaFind_genericPairs_builtin (l : List String) :
    ∀ (i k : Nat) (c : String), l[k]? = some c →
      (∀ a, classifyColumn c ≠ ColRole.Generic a) →
      schemaFind (genericPairs i l) (i + k) = none := by
  induction l with
  | nil => intro i k c hget _; simp at hget
  | cons c0 rest ih =>
    intro i k c hget hcls
    cases k with
    | zero =>
      simp at hget
      subst hget
      cases hc : classifyColumn c0
      case Generic a => exact absurd hc (hcls a)
      all_goals
        simp only [genericPairs, hc]
        exact schemaFind_genericPairs_lt rest (i + 1) (i + 0) (by omega)
    | succ k =>
      have hget2 : rest[k]? = some c := by simpa using hget
      cases hc0 : classifyColumn c0
      case Generic a0 =>
        simp only [genericPairs, hc0, schemaFind]
        rw [if_neg (by omega)]
        have := ih (i + 1) k c hget2 hcls
        rw [show i + (k + 1) = (i + 1) + k by omega]
        exact this
      all_goals
        simp only [genericPairs, hc0]
        have := ih (i + 1) k c hget2 hcls
        rw [show i + (k + 1) = (i + 1) + k by omega]
        exact this

theorem mem_genericPairs (l : List String) :
    ∀ (i : Nat) (p : Nat × String), p ∈ genericPairs i l →
      ∃ (k : Nat) (c : String), l[k]? = some c ∧ p.1 = i + k ∧
        classifyColumn c = ColRole.Generic p.2 := by
  induction l with
  | nil => intro i p hp; simp [genericPairs] at hp
  | cons c0 rest ih =>
    intro i p hp
    cases hc0 : classifyColumn c0
    case Generic a0 =>
      simp only [genericPairs, hc0, List.mem_cons] at hp
      rcases hp with hp | hp
      · subst hp
        exact ⟨0, c0, by simp, by simp, hc0⟩
      · obtain ⟨k, c, hget, hidx, hcls⟩ := ih (i + 1) p hp
        exact ⟨k + 1, c, by simpa using hget, by omega, hcls⟩
    all_goals
      simp only [genericPairs, hc0] at hp
      obtain ⟨k, c, hget, hidx, hcls⟩ := ih (i + 1) p hp
      exact ⟨k + 1, c, by simpa using hget, by omega, hcls⟩

/-! ## Supporting lemmas: line mapping and attribute order -/

theorem mapField_attributes (schema : SchemaTable) (acc acc1 : LineAcc) (i : Nat) (f : String)
    (h : mapField schema acc i f = some acc1) :
    acc1.pm.attributes = acc.pm.attributes ++ (attrOf schema (i, f)).toList := by
  unfold mapField at h
  unfold attrOf
  split_ifs at h ⊢ with h1 h2 h3 h4
  · cases hp : parseDecimal f <;> rw [hp] at h
    · exact absurd h (by simp)
    · cases h; simp
  · cases hp : parseDecimal f <;> rw [hp] at h
    · exact absurd h (by simp)
    · cases h; simp
  · cases h; simp
  · cases h; simp
  · cases hf : schemaFind schema.csv_schema i <;> rw [hf] at h <;> cases h <;> simp

theorem mapFields_attributes (schema : SchemaTable) (rest : List String) :
    ∀ (i : Nat) (acc acc2 : LineAcc), mapFields schema i rest acc = some acc2 →
      acc2.pm.attributes = acc.pm.attributes ++
        ((List.range' i rest.length).zip rest).filterMap (attrOf schema) := by
  induction rest with
  | nil =>
    intro i acc acc2 h
    simp only [mapFields] at h
    cases h
    simp
  | cons f rest ih =>
    intro i acc acc2 h
    simp only [mapFields] at h
    cases hmf : mapField schema acc i f <;> rw [hmf] at h
    · exact absurd h (by simp)
    case some acc1 =>
      have ha := ih (i + 1) acc1 acc2 h
      have hb := mapField_attributes schema acc acc1 i f hmf
      rw [List.length_cons, List.range'_succ, List.zip_cons_cons, List.filterMap_cons]
      cases hattr : attrOf schema (i, f) <;> rw [hattr] at hb <;> simp at hb <;>
        simp [ha, hb, hattr]

theorem csvLineToPlacemark_ok_attributes (schema : SchemaTable) (fields : List String)
    (pm : Placemark) (h : csvLineToPlacemark schema fields = (CsvParserStatus.OK, pm)) :
    pm.attributes = ascendingAttributes schema fields := by
  unfold csvLineToPlacemark at h
  by_cases hne : fields.isEmpty
  · rw [if_pos hne] at h
    exact absurd h (by simp)
  · rw [if_neg hne] at h
    cases hm : mapFields schema 0 fields ⟨none, none, emptyPlacemark⟩ with
    | none =>
      rw [hm] at h
      exact absurd h (by simp)
    | some acc =>
      rw [hm] at h
      have hattrs := mapFields_attributes schema fields 0 _ acc hm
      obtain ⟨alat, alon, apm⟩ := acc
      cases alat with
      | none => exact absurd h (by simp)
      | some la =>
        cases alon with
        | none => exact absurd h (by simp)
        | some lo =>
          simp only [Prod.mk.injEq] at h
          obtain ⟨-, hpm⟩ := h
          subst hpm
          simp only [emptyPlacemark] at hattrs
          simpa [ascendingAttributes, List.range_eq_range'] using hattrs

/-! ## Supporting lemmas: driver loop -/

theorem runLines_continueAll (schema : SchemaTable) (lines : List (List String)) :
    ∀ n : Nat, runLines schema continueAll n lines =
      ((List.range' n lines.length).zip lines).map
        (fun p => (p.1, csvLineToPlacemark schema p.2)) := by
  induction lines with
  | nil => intro n; rfl
  | cons line rest ih =>
    intro n
    simp only [runLines, continueAll, if_true, List.length_cons, List.range'_succ,
               List.zip_cons_cons, List.map_cons]
    rw [ih (n + 1)]

theorem parseCsv_cons (header : List String) (dataLines : List (List String))
    (handler : CsvParserHandlerFn) :
    ParseCsv (header :: dataLines) handler =
      (true, runLines (SetSchema emptySchema header).2 handler 2 dataLines) := rfl

theorem setSchema_status_ok (header : List String) (h : header ≠ []) :
    (SetSchema emptySchema header).1 = CsvParserStatus.OK := by
  cases header with
  | nil => exact absurd rfl h
  | cons c rest => rfl

theorem setSchema_table (header : List String) (h : header ≠ []) :
    (SetSchema emptySchema header).2 = setSchemaFrom emptySchema 0 header := by
  cases header with
  | nil => exact absurd rfl h
  | cons c rest => rfl

theorem setSchema_csv_schema (header : List String) (h : header ≠ []) :
    (SetSchema emptySchema header).2.csv_schema = genericPairs 0 header := by
  rw [setSchema_table header h, setSchemaFrom_eq]
  exact insertAll_from_bounded header 0 [] (by simp)

/-! ## Supporting lemmas: counting, sortedness, idempotence -/

theorem isBuiltinName_iff (s : String) :
    isBuiltinName s = true ↔ lowerAscii s ∈ builtinNames := by
  unfold isBuiltinName
  split_ifs with h <;> simp [h]

theorem classify_not_generic_of_builtin (s : String) (h : lowerAscii s ∈ builtinNames) :
    ∀ a, classifyColumn s ≠ ColRole.Generic a := by
  intro a hcls
  exact ((classifyColumn_generic s a).mp hcls).1 h

theorem classify_generic_of_not_builtin (s : String) (h : lowerAscii s ∉ builtinNames) :
    classifyColumn s = ColRole.Generic s :=
  (classifyColumn_generic s s).mpr ⟨h, rfl⟩

theorem genericPairs_length (l : List String) :
    ∀ i : Nat, (genericPairs i l).length + l.countP isBuiltinName = l.length := by
  induction l with
  | nil => intro i; rfl
  | cons c rest ih =>
    intro i
    by_cases hb : lowerAscii c ∈ builtinNames
    · have hng := classify_not_generic_of_builtin c hb
      cases hc : classifyColumn c
      all_goals
        first
        | exact absurd hc (hng _)
        | (simp only [genericPairs, hc, List.countP_cons, (isBuiltinName_iff c).mpr hb,
                      if_true, List.length_cons]
           have := ih (i + 1)
           omega)
    · have hc := classify_generic_of_not_builtin c hb
      have hbf : isBuiltinName c = false := by
        cases hbb : isBuiltinName c
        · rfl
        · exact absurd ((isBuiltinName_iff c).mp hbb) hb
      simp only [genericPairs, hc, List.countP_cons, hbf, List.length_cons]
      have := ih (i + 1)
      simp only [Bool.false_eq_true, if_false]
      omega

theorem genericPairs_key_lb (l : List String) (i : Nat) (p : Nat × String)
    (hp : p ∈ genericPairs i l) : i ≤ p.1 := by
  obtain ⟨k, c, _, hidx, _⟩ := mem_genericPairs l i p hp
  omega

theorem genericPairs_sorted (l : List String) :
    ∀ i : Nat, List.Pairwise (fun p q : Nat × String => p.1 < q.1) (genericPairs i l) := by
  induction l with
  | nil => intro i; simp [genericPairs]
  | cons c rest ih =>
    intro i
    cases hc : classifyColumn c
    case Generic a =>
      simp only [genericPairs, hc]
      refine List.pairwise_cons.mpr ⟨?_, ih (i + 1)⟩
      intro q hq
      have hlb := genericPairs_key_lb rest (i + 1) q hq
      show i < q.1
      omega
    all_goals
      simp only [genericPairs, hc]
      exact ih (i + 1)

theorem mapInsert_mem_id (k : Nat) (v : String) :
    ∀ m : List (Nat × String), List.Pairwise (fun p q : Nat × String => p.1 < q.1) m →
      (k, v) ∈ m → mapInsert k v m = m := by
  intro m
  induction m with
  | nil => intro _ hm; simp at hm
  | cons q0 rest ih =>
    intro hs hm
    obtain ⟨k0, v0⟩ := q0
    obtain ⟨hhead, htail⟩ := List.pairwise_cons.mp hs
    rcases List.mem_cons.mp hm with heq | hmem
    · injection heq with h1 h2
      subst h1
      subst h2
      simp [mapInsert]
    · have hk0 : k0 < k := hhead (k, v) hmem
      simp only [mapInsert]
      rw [if_neg (by omega), if_neg (by omega)]
      rw [ih htail hmem]

theorem insertAll_absorb (l : List String) :
    ∀ (i : Nat) (m : List (Nat × String)),
      List.Pairwise (fun p q : Nat × String => p.1 < q.1) m →
      (∀ p ∈ genericPairs i l, p ∈ m) →
      insertAll m i l = m := by
  induction l with
  | nil => intro i m _ _; rfl
  | cons c rest ih =>
    intro i m hs hsub
    cases hc : classifyColumn c
    case Generic a =>
      have hmem : (i, a) ∈ m := hsub (i, a) (by simp [genericPairs, hc])
      simp only [insertAll, hc]
      rw [mapInsert_mem_id i a m hs hmem]
      exact ih (i + 1) m hs fun p hp =>
        hsub p (by simp only [genericPairs, hc]; exact List.mem_cons_of_mem _ hp)
    all_goals
      simp only [insertAll, hc]
      exact ih (i + 1) m hs fun p hp =>
        hsub p (by simp only [genericPairs, hc]; exact hp)

theorem colFold_replay (hit : ColRole → Bool) (l : List String) :
    ∀ (i : Nat) (o : Option Nat),
      colFold hit (colFold hit o i l) i l = colFold hit o i l := by
  induction l with
  | nil => intro i o; rfl
  | cons c rest ih =>
    intro i o
    by_cases hc : hit (classifyColumn c) = true
    · simp only [colFold, hc, if_true]
    · simp only [colFold, hc, if_false]
      exact ih (i + 1) o

theorem setSchemaFrom_replay (l : List String) :
    setSchemaFrom (setSchemaFrom emptySchema 0 l) 0 l = setSchemaFrom emptySchema 0 l := by
  rw [setSchemaFrom_eq l 0 emptySchema]
  rw [setSchemaFrom_eq l 0 _]
  simp only [emptySchema, SchemaTable.mk.injEq]
  refine ⟨colFold_replay hitLat l 0 none, colFold_replay hitLon l 0 none,
          colFold_replay hitName l 0 none, colFold_replay hitDescription l 0 none, ?_⟩
  have hbase : insertAll [] 0 l = genericPairs 0 l := by
    have := insertAll_from_bounded l 0 [] (by simp)
    simpa using this
  rw [hbase]
  exact insertAll_absorb l 0 (genericPairs 0 l) (genericPairs_sorted l 0) fun p hp => hp

/-! ## Claim theorems -/

/-- Claim C1, counterexample: on the input of unit test `TestBadLineError`
(header `latitude,longitude`, then two data lines), the handler is invoked
with line numbers 2 and 3 — not 1 and 2.  The first data line is passed
line number 2, refuting the claim that the 1-based counter starts at 1 for
the first data line (the header line IS counted). -/
theorem claim1_lineNumber_counterexample :
    ((ParseCsv [["latitude", "longitude"], ["this", "is", "bad"], ["1.1", "-2.2"]]
        continueAll).2.map fun e => e.1) = [2, 3] ∧
    ¬ ((ParseCsv [["latitude", "longitude"], ["this", "is", "bad"], ["1.1", "-2.2"]]
        continueAll).2.map fun e => e.1) = [1, 2] := by
  exact ⟨by decide, by decide⟩

/-- Claim C1, amended: the Driver Loop passes the handler the 1-based
physical line number of the input with the header counted as line 1, so the
k-th data line (k = 1, 2, ...) receives line number k + 1; the trace of
line numbers is 2, 3, ..., number of data lines + 1. -/
theorem claim1_lineNumber_amended (header : List String) (dataLines : List (List String)) :
    ((ParseCsv (header :: dataLines) continueAll).2.map fun e => e.1) =
      List.range' 2 dataLines.length := by
  rw [parseCsv_cons, runLines_continueAll, List.map_map]
  have hcomp : ((fun e : Nat × CsvParserStatus × Placemark => e.1) ∘
      fun p : Nat × List String =>
        (p.1, csvLineToPlacemark (SetSchema emptySchema header).2 p.2)) =
      (Prod.fst : Nat × List String → Nat) := rfl
  rw [hcomp]
  exact List.map_fst_zip _ _ (by simp)

/-- Claim C2: an empty header sequence makes `SetSchema` return the
`BlankLine` status — the very same status code a structurally blank data
line receives from the Line Mapper — and, the functions being total, no
exception and no distinct empty-schema error exists. -/
theorem claim2_emptyHeader_blankLine :
    (SetSchema emptySchema []).1 = CsvParserStatus.BlankLine ∧
    ∀ schema : SchemaTable,
      (SetSchema emptySchema []).1 = (csvLineToPlacemark schema []).1 :=
  ⟨rfl, fun _ => rfl⟩

/-- Claim C3: each header column is classified on its own text by
case-insensitive exact match — each built-in role is assigned exactly when
the lower-cased column text equals the corresponding built-in name,
regardless of the surrounding columns — and every non-matching column
enters the schema map at its index under its original casing, while a
built-in column's index never enters the map. -/
theorem claim3_caseInsensitive_classification (header : List String) (i : Nat)
    (hi : i < header.length) :
    ((classifyColumn (header.get ⟨i, hi⟩) = ColRole.Latitude ↔
        lowerAscii (header.get ⟨i, hi⟩) = "latitude") ∧
     (classifyColumn (header.get ⟨i, hi⟩) = ColRole.Longitude ↔
        lowerAscii (header.get ⟨i, hi⟩) = "longitude") ∧
     (classifyColumn (header.get ⟨i, hi⟩) = ColRole.Name ↔
        lowerAscii (header.get ⟨i, hi⟩) = "name") ∧
     (classifyColumn (header.get ⟨i, hi⟩) = ColRole.Description ↔
        lowerAscii (header.get ⟨i, hi⟩) = "description")) ∧
    (lowerAscii (header.get ⟨i, hi⟩) ∈ builtinNames →
      schemaFind (SetSchema emptySchema header).2.csv_schema i = none) ∧
    (lowerAscii (header.get ⟨i, hi⟩) ∉ builtinNames →
      schemaFind (SetSchema emptySchema header).2.csv_schema i =
        some (header.get ⟨i, hi⟩)) := by
  have hne : header ≠ [] := by
    intro h0
    rw [h0] at hi
    exact absurd hi (by simp)
  have hget : header[i]? = some (header.get ⟨i, hi⟩) := by
    rw [List.getElem?_eq_getElem hi]
    simp [List.get_eq_getElem]
  refine ⟨⟨classifyColumn_latitude _, classifyColumn_longitude _, classifyColumn_name _,
          classifyColumn_description _⟩, ?_, ?_⟩
  · intro hb
    rw [setSchema_csv_schema header hne]
    simpa using schemaFind_genericPairs_builtin header 0 i _ hget
      (classify_not_generic_of_builtin _ hb)
  · intro hb
    rw [setSchema_csv_schema header hne]
    simpa using schemaFind_genericPairs_generic header 0 i _ _ hget
      (classify_generic_of_not_builtin _ hb)

/-- Claim C3 witness: in a mixed-case header as in unit test
`TestSetSchemaMixedCase`, column 3 ("BlueYardage") is not a built-in name
and is found in the schema map under its original casing. -/
theorem claim3_caseInsensitive_classification_witness :
    schemaFind (SetSchema emptySchema
        ["Name", "Longitude", "Latitude", "BlueYardage"]).2.csv_schema 3 =
      some "BlueYardage" :=
  (claim3_caseInsensitive_classification
      ["Name", "Longitude", "Latitude", "BlueYardage"] 3 (by decide)).2.2 (by decide)

/-- Claim C4: for every header containing latitude and longitude
case-insensitively (any order, any casing), `SetSchema` succeeds with
status `OK`, and the number of generic columns in the schema map equals the
total number of columns minus the number of recognised built-in columns. -/
theorem claim4_schema_ok_and_counts (header : List String)
    (hlat : ∃ s ∈ header, lowerAscii s = "latitude")
    (_hlon : ∃ s ∈ header, lowerAscii s = "longitude") :
    (SetSchema emptySchema header).1 = CsvParserStatus.OK ∧
    (SetSchema emptySchema header).2.csv_schema.length =
      header.length - header.countP isBuiltinName := by
  obtain ⟨s, hs, -⟩ := hlat
  have hne : header ≠ [] := by
    intro h0
    rw [h0] at hs
    exact absurd hs (by simp)
  refine ⟨setSchema_status_ok header hne, ?_⟩
  rw [setSchema_csv_schema header hne]
  have := genericPairs_length header 0
  omega

/-- Claim C4 witness: the header of unit test `TestSetSchemaExtraCols`
(`latitude,longitude,par,yardage`) yields status `OK` and 2 = 4 - 2
generic columns. -/
theorem claim4_schema_ok_and_counts_witness :
    (SetSchema emptySchema ["latitude", "longitude", "par", "yardage"]).1 =
      CsvParserStatus.OK ∧
    (SetSchema emptySchema ["latitude", "longitude", "par", "yardage"]).2.csv_schema.length =
      (["latitude", "longitude", "par", "yardage"] : List String).length -
        (["latitude", "longitude", "par", "yardage"] : List String).countP isBuiltinName :=
  claim4_schema_ok_and_counts _ (by decide) (by decide)

/-- Claim C5: whenever a data line maps successfully to an `OK` record,
the generic attributes of the emitted record are exactly the attribute
pairs of the generic columns enumerated by ascending column index, so the
left-to-right order of the generic columns is preserved. -/
theorem claim5_attributes_ascending (schema : SchemaTable) (fields : List String)
    (pm : Placemark) (h : csvLineToPlacemark schema fields = (CsvParserStatus.OK, pm)) :
    pm.attributes = ascendingAttributes schema fields :=
  csvLineToPlacemark_ok_attributes schema fields pm h

/-- Claim C5 witness: with the schema of header
`latitude,longitude,par,yardage` and the data line `1.1,-2.2,3,389`, the
emitted attributes are `[("par", "3"), ("yardage", "389")]`, matching the
ascending-index enumeration. -/
theorem claim5_attributes_ascending_witness :
    (⟨none, none, some (⟨11, 1⟩, ⟨-22, 1⟩),
        [("par", "3"), ("yardage", "389")]⟩ : Placemark).attributes =
      ascendingAttributes (SetSchema emptySchema ["latitude", "longitude", "par", "yardage"]).2
        ["1.1", "-2.2", "3", "389"] :=
  claim5_attributes_ascending _ _ _ (by decide)

/-- Claim C6: under the always-continue handler the Driver Loop delivers
exactly one outcome per data line, each line's outcome computed from that
line alone, and the loop-level result stays `true`; concretely, on the
`TestBadLineError` input the non-numeric line yields the only
`InvalidData` (at line 2) while the following valid line still yields `OK`
(at line 3), and `ParseCsv` reports success. -/
theorem claim6_perLine_isolation :
    (∀ (header : List String) (dataLines : List (List String)),
      (ParseCsv (header :: dataLines) continueAll).1 = true ∧
      (ParseCsv (header :: dataLines) continueAll).2 =
        ((List.range' 2 dataLines.length).zip dataLines).map
          (fun p => (p.1, csvLineToPlacemark (SetSchema emptySchema header).2 p.2))) ∧
    ((ParseCsv [["latitude", "longitude"], ["this", "is", "bad"], ["1.1", "-2.2"]]
        continueAll).2.map (fun e => (e.1, e.2.1)) =
      [(2, CsvParserStatus.InvalidData), (3, CsvParserStatus.OK)] ∧
     (ParseCsv [["latitude", "longitude"], ["this", "is", "bad"], ["1.1", "-2.2"]]
        continueAll).1 = true) := by
  refine ⟨fun header dataLines => ⟨rfl, ?_⟩, by decide, by decide⟩
  rw [parseCsv_cons, runLines_continueAll]

/-- Claim C7: with the standard header, the identifier and the description
of the emitted record are exactly the raw field texts and the geometry is
the pair of parsed coordinates, for arbitrary raw texts; in particular,
header `name,latitude,longitude` with data `hello,38.1,-121.2` yields
exactly one `OK` record with identifier "hello", geometry (38.1, -121.2)
(that is, (381/10, -1212/10)), no description, and no attributes. -/
theorem claim7_builtin_fields_verbatim :
    (∀ (nm slat slon dsc : String) (la lo : Decimal),
      parseDecimal slat = some la → parseDecimal slon = some lo →
      csvLineToPlacemark
          (SetSchema emptySchema ["name", "latitude", "longitude", "description"]).2
          [nm, slat, slon, dsc] =
        (CsvParserStatus.OK, ⟨some nm, some dsc, some (la, lo), []⟩)) ∧
    ParseCsv [["name", "latitude", "longitude"], ["hello", "38.1", "-121.2"]] continueAll =
      (true, [(2, CsvParserStatus.OK,
        ⟨some "hello", none, some (⟨381, 1⟩, ⟨-1212, 1⟩), []⟩)]) ∧
    Decimal.toRat ⟨381, 1⟩ = 381 / 10 ∧
    Decimal.toRat ⟨-1212, 1⟩ = -(1212 / 10) := by
  refine ⟨?_, by decide, by norm_num [Decimal.toRat], by norm_num [Decimal.toRat]⟩
  intro nm slat slon dsc la lo hla hlo
  have hs : (SetSchema emptySchema ["name", "latitude", "longitude", "description"]).2 =
      ⟨some 1, some 2, some 0, some 3, []⟩ := by decide
  rw [hs]
  simp [csvLineToPlacemark, mapFields, mapField, schemaFind, hla, hlo, emptyPlacemark]

/-- Claim C7 witness: the scenario of unit test
`TestCsvLineToPlacemarkWithNameAndDescription` — the raw texts "Hi there"
and "How are you?" appear verbatim as identifier and description, and the
geometry is (38.123, -123.125). -/
theorem claim7_builtin_fields_verbatim_witness :
    csvLineToPlacemark
        (SetSchema emptySchema ["name", "latitude", "longitude", "description"]).2
        ["Hi there", "38.123", "-123.125", "How are you?"] =
      (CsvParserStatus.OK,
        ⟨some "Hi there", some "How are you?", some (⟨38123, 3⟩, ⟨-123125, 3⟩), []⟩) :=
  claim7_builtin_fields_verbatim.1 "Hi there" "38.123" "-123.125" "How are you?"
    ⟨38123, 3⟩ ⟨-123125, 3⟩ (by decide) (by decide)

/-- Claim C8: schema construction is idempotent — calling `SetSchema` a
second time with the same header, from the parser state the first call left
behind, returns the same status and a structurally identical schema
table. -/
theorem claim8_setSchema_idempotent (header : List String) :
    SetSchema (SetSchema emptySchema header).2 header = SetSchema emptySchema header := by
  cases header with
  | nil => rfl
  | cons c rest =>
    show (CsvParserStatus.OK,
        setSchemaFrom (setSchemaFrom emptySchema 0 (c :: rest)) 0 (c :: rest)) =
      (CsvParserStatus.OK, setSchemaFrom emptySchema 0 (c :: rest))
    rw [setSchemaFrom_replay]

/-- Claim C9: after a successful `SetSchema`, the map exposed by
`GetSchema` contains exactly the generic columns as an index-to-name map:
looking up a built-in column's index fails, looking up a generic column's
index returns the original column text, and every entry of the map comes
from a generic column of the header. -/
theorem claim9_getSchema_exactly_generic (src : Option (List (List String)))
    (header : List String)
    (hok : (CsvParserObj.SetSchemaM ⟨src, emptySchema⟩ header).1 = CsvParserStatus.OK) :
    (∀ (i : Nat) (hi : i < header.length),
      (lowerAscii (header.get ⟨i, hi⟩) ∈ builtinNames →
        schemaFind ((CsvParserObj.SetSchemaM ⟨src, emptySchema⟩ header).2.GetSchema) i =
          none) ∧
      (lowerAscii (header.get ⟨i, hi⟩) ∉ builtinNames →
        schemaFind ((CsvParserObj.SetSchemaM ⟨src, emptySchema⟩ header).2.GetSchema) i =
          some (header.get ⟨i, hi⟩))) ∧
    (∀ p ∈ (CsvParserObj.SetSchemaM ⟨src, emptySchema⟩ header).2.GetSchema,
      ∃ (k : Nat) (c : String), header[k]? = some c ∧ p.1 = k ∧
        classifyColumn c = ColRole.Generic p.2) := by
  have hne : header ≠ [] := by
    intro h0
    subst h0
    exact CsvParserStatus.noConfusion hok
  have hgs : (CsvParserObj.SetSchemaM ⟨src, emptySchema⟩ header).2.GetSchema =
      genericPairs 0 header := by
    show (SetSchema emptySchema header).2.csv_schema = genericPairs 0 header
    exact setSchema_csv_schema header hne
  refine ⟨?_, ?_⟩
  · intro i hi
    have hget : header[i]? = some (header.get ⟨i, hi⟩) := by
      rw [List.getElem?_eq_getElem hi]
      simp [List.get_eq_getElem]
    constructor
    · intro hb
      rw [hgs]
      simpa using schemaFind_genericPairs_builtin header 0 i _ hget
        (classify_not_generic_of_builtin _ hb)
    · intro hb
      rw [hgs]
      simpa using schemaFind_genericPairs_generic header 0 i _ _ hget
        (classify_generic_of_not_builtin _ hb)
  · intro p hp
    rw [hgs] at hp
    obtain ⟨k, c, h1, h2, h3⟩ := mem_genericPairs header 0 p hp
    exact ⟨k, c, h1, by omega, h3⟩

/-- Claim C9 witness: with a NULL line source and the mixed-case header of
`TestSetSchemaMixedCase`, looking up built-in column 0 ("Name") in the map
returned by `GetSchema` fails. -/
theorem claim9_getSchema_exactly_generic_witness :
    schemaFind ((CsvParserObj.SetSchemaM ⟨none, emptySchema⟩
        ["Name", "Longitude", "Latitude", "BlueYardage"]).2.GetSchema) 0 = none :=
  ((claim9_getSchema_exactly_generic none ["Name", "Longitude", "Latitude", "BlueYardage"]
      (by decide)).1 0 (by decide)).1 (by decide)

/-- Claim C10: `SetSchema` works on a parser constructed with any line
source, including none (the NULL `CsvSplitter*` of the unit tests): the
result is computed from the header fields alone, the line source component
is neither consulted nor changed, and the outcome is identical to the one
obtained with the null source. -/
theorem claim10_setSchema_ignores_splitter (src : Option (List (List String)))
    (header : List String) :
    CsvParserObj.SetSchemaM ⟨src, emptySchema⟩ header =
      ((SetSchema emptySchema header).1, ⟨src, (SetSchema emptySchema header).2⟩) ∧
    (CsvParserObj.SetSchemaM ⟨src, emptySchema⟩ header).1 =
      (CsvParserObj.SetSchemaM ⟨none, emptySchema⟩ header).1 ∧
    (CsvParserObj.SetSchemaM ⟨src, emptySchema⟩ header).2.schema =
      (CsvParserObj.SetSchemaM ⟨none, emptySchema⟩ header).2.schema :=
  ⟨rfl, rfl, rfl⟩
